import Mathlib

/-!
Verification of the `tynm` type-name parser and renderer.

The development shallowly embeds the two subsystems of the crate:

* the recursive-descent parser of `src/parser.rs` (`type_name` and its
  helper productions, built on `nom` combinators), and
* the tree renderer of `src/types.rs` (`TypeName::write_str`,
  `TypeNameStruct::write_module_path`, `write_type_params`, ...).

Strings are modelled as `List Char` (the crate only slices borrowed
`&str` data, so a character-list model is faithful and keeps proofs
about concatenation elementary).  Machine integers (`usize`) are
modelled as `Nat`; the one place where overflow matters,
`m.saturating_add(n)`, is modelled explicitly with `USIZE_MAX`.

The `nom` combinator semantics mirrored here (version 5, as used by the
crate): `Err::Error` is recoverable by `alt`/`opt`, a Rust panic
(`unimplemented!` for pointer types) is unrecoverable and is modelled as
a distinct fatal error; `separated_list(sep, elem)` pushes an element
even when the element parser consumes nothing, and only requires the
separator to consume input (the separators used here, `"::"` and
`", "`, always consume when they succeed).
-/

namespace Tynm

/-! ## Character classes (src/parser.rs lines 50-56) -/

/-- `is_alphanumeric_underscore`: `c == '_' || c.is_ascii_alphanumeric()`. -/
def is_alphanumeric_underscore (c : Char) : Bool :=
  c == '_' || (('a' ≤ c && c ≤ 'z') || ('A' ≤ c && c ≤ 'Z') || ('0' ≤ c && c ≤ '9'))

/-- `is_lowercase_alphanumeric_underscore`:
`c == '_' || c.is_ascii_digit() || c.is_ascii_lowercase()`. -/
def is_lowercase_alphanumeric_underscore (c : Char) : Bool :=
  c == '_' || ('0' ≤ c && c ≤ '9') || ('a' ≤ c && c ≤ 'z')

/-- `c.is_ascii_alphabetic() && c.is_ascii_lowercase()` (first-character test
of `module_name`). -/
def is_ascii_lower_alpha (c : Char) : Bool :=
  'a' ≤ c && c ≤ 'z'

/-- `c.is_ascii_alphabetic() && c.is_ascii_uppercase()` (first-character test
of `type_simple_name`). -/
def is_ascii_upper_alpha (c : Char) : Bool :=
  'A' ≤ c && c ≤ 'Z'

/-! ## The tree (src/types.rs, `enum TypeName` and payload structs).

Payload structs are inlined as constructor fields; `Trait` carries the
same three fields as `Struct`, mirroring `TypeNameTrait { inner:
TypeNameStruct }`. -/

inductive TypeName where
  | None : TypeName
  | Array (type_param : TypeName) (len : List Char) : TypeName
  | Never : TypeName
  | Pointer (const_or_mut : List Char) (type_param : TypeName) : TypeName
  | Reference (mutable : Bool) (type_param : TypeName) : TypeName
  | Slice (type_param : TypeName) : TypeName
  | Struct (module_path : List (List Char)) (simple_name : List Char)
      (type_params : List TypeName) : TypeName
  | Tuple (type_params : List TypeName) : TypeName
  | Trait (module_path : List (List Char)) (simple_name : List Char)
      (type_params : List TypeName) : TypeName
  | Unit : TypeName

/-! ## The renderer (src/types.rs) -/

/-- `usize::MAX` on a 64-bit platform. -/
def USIZE_MAX : Nat := 2 ^ 64 - 1

/-- `m.saturating_add(n)` on `usize`. -/
def saturating_add (m n : Nat) : Nat := min (m + n) USIZE_MAX

/-- `TypeNameStruct::write_module_path` (src/types.rs lines 382-417),
as the string it appends to the buffer. -/
def write_module_path (module_path : List (List Char)) (m n : Nat) : List Char :=
  let module_segment_count := saturating_add m n
  let len := module_path.length
  (if len ≤ module_segment_count then
    -- Print full module path
    List.intercalate ("::".data) module_path
  else
    -- Print leading and trailing module segments
    List.intercalate ("::".data) (module_path.take m)
    ++ (if 0 < m then ("::".data) else [])
    -- If we skipped any module segments, indicate this with ".."
    ++ (if 0 < module_segment_count then ("..".data) else [])
    ++ (if 0 < n then ("::".data) else [])
    ++ List.intercalate ("::".data) (module_path.drop (len - n)))
  ++ (if 0 < module_segment_count then ("::".data) else [])

mutual

/-- `TypeName::write_str` (src/types.rs lines 148-165), together with the
per-variant `write_str` implementations it dispatches to, as the string
appended to the buffer. -/
def write_str : TypeName → Nat → Nat → List Char
  | .None, _, _ => []
  | .Array t len, m, n => ("[".data) ++ write_str t m n ++ ("; ".data) ++ len ++ ("]".data)
  | .Never, _, _ => ("!".data)
  | .Pointer cm t, m, n => ("* ".data) ++ cm ++ (" ".data) ++ write_str t m n
  | .Reference mu t, m, n =>
    ("&".data) ++ (if mu then ("mut ".data) else []) ++ write_str t m n
  | .Slice t, m, n => ("[".data) ++ write_str t m n ++ ("]".data)
  | .Struct p nm ps, m, n => write_module_path p m n ++ nm ++ write_type_params ps m n
  | .Tuple ps, m, n => tuple_write_str ps m n
  | .Trait p nm ps, m, n =>
    ("dyn ".data) ++ (write_module_path p m n ++ nm ++ write_type_params ps m n)
  | .Unit, _, _ => ("()".data)

/-- `TypeNameStruct::write_type_params` (src/types.rs lines 441-461). -/
def write_type_params : List TypeName → Nat → Nat → List Char
  | [], _, _ => []
  | t :: ts, m, n => ("<".data) ++ write_str t m n ++ write_params_rest ts m n ++ (">".data)

/-- `TypeNameTuple::write_str` (src/types.rs lines 487-512): nothing for an
empty list, a forced trailing comma for a single element. -/
def tuple_write_str : List TypeName → Nat → Nat → List Char
  | [], _, _ => []
  | [t], m, n => ("(".data) ++ write_str t m n ++ (",".data) ++ (")".data)
  | t :: ts, m, n => ("(".data) ++ write_str t m n ++ write_params_rest ts m n ++ (")".data)

/-- The `rest.iter().try_for_each(|p| write(", ") and write p)` loop shared by
`write_type_params` and the tuple renderer. -/
def write_params_rest : List TypeName → Nat → Nat → List Char
  | [], _, _ => []
  | t :: ts, m, n => (", ".data) ++ write_str t m n ++ write_params_rest ts m n

end

/-! ## The parser (src/parser.rs)

Results mirror `nom::IResult`: `.ok (remaining, value)` on success.
`PErr.err` models a recoverable `nom::Err::Error`; `PErr.fatal` models
the Rust panic raised by `unimplemented!` for pointer types, which no
combinator recovers from. -/

inductive PErr where
  | err : PErr
  | fatal : PErr
deriving DecidableEq

/-- A parse result: remaining input paired with the parsed value, or an error. -/
abbrev PRes (α : Type) := Except PErr (List Char × α)

/-- `module_name` (src/parser.rs lines 58-68).  It never fails, so it is
modelled as a total function returning `(remaining, name)`. -/
def module_name (i : List Char) : List Char × List Char :=
  match i with
  | [] => (i, [])
  | c :: _ =>
    if is_ascii_lower_alpha c then
      (i.dropWhile is_lowercase_alphanumeric_underscore,
       i.takeWhile is_lowercase_alphanumeric_underscore)
    else (i, [])

/-- The `separated_list(tag("::"), module_name)` loop inside `module_path`:
after the first element, repeatedly consume a `"::"` separator and parse
another (possibly empty) module name.  The separator consumes two
characters per iteration, so a fuel of the input length is plenty. -/
def module_path_loop : Nat → List Char → List Char × List (List Char)
  | 0, i => (i, [])
  | fuel + 1, i =>
    match i with
    | ':' :: ':' :: i1 =>
      let r := module_name i1
      let rec_result := module_path_loop fuel r.1
      (rec_result.1, r.2 :: rec_result.2)
    | _ => (i, [])

/-- `module_path` (src/parser.rs lines 70-75): the separated list of module
names, with empty names filtered out (`retain(|name| !name.is_empty())`). -/
def module_path (i : List Char) : List Char × List (List Char) :=
  let first := module_name i
  let rest := module_path_loop (i.length + 1) first.1
  (rest.1, (first.2 :: rest.2).filter (fun nm => !nm.isEmpty))

/-- `type_simple_name` (src/parser.rs lines 77-87); never fails. -/
def type_simple_name (i : List Char) : List Char × List Char :=
  match i with
  | [] => (i, [])
  | c :: _ =>
    if is_ascii_upper_alpha c then
      (i.dropWhile is_alphanumeric_underscore, i.takeWhile is_alphanumeric_underscore)
    else (i, [])

/-- `PRIMITIVE_TYPES` (src/parser.rs lines 21-48), in source order — the
order matters because `named_primitive` takes the first prefix match. -/
def PRIMITIVE_TYPES : List (List Char) :=
  [("bool".data), ("char".data), ("f32".data), ("f64".data),
   ("i128".data), ("i16".data), ("i32".data), ("i64".data), ("i8".data),
   ("isize".data), ("str".data),
   ("u128".data), ("u16".data), ("u32".data), ("u64".data), ("u8".data),
   ("usize".data)]

/-- `named_primitive` (src/parser.rs lines 160-190): find the first primitive
that is a string prefix of the input, then check the boundary: end of input,
or a next character outside the lowercase-identifier class. -/
def named_primitive (i : List Char) : Option (PRes TypeName) :=
  match PRIMITIVE_TYPES.find? (fun p => p.isPrefixOf i) with
  | some prim =>
    let remainder := i.drop prim.length
    let is_primitive_type : Bool :=
      match remainder with
      | [] => true
      | c :: _ => !is_lowercase_alphanumeric_underscore c
    if is_primitive_type then
      some (.ok (remainder, .Struct [] prim []))
    else
      none
  | none => none

/-- `array_length` (src/parser.rs lines 98-108):
`pair(tag("; "), take_until("]"))`, with any `Err::Error` recovered as
`(input-at-error, None)`.  Like the original it never fails. -/
def array_length (i : List Char) : List Char × Option (List Char) :=
  match i with
  | ';' :: ' ' :: i1 =>
    let len := i1.takeWhile (fun c => !(c == ']'))
    if len.length = i1.length then
      -- take_until("]") found no "]": its Err::Error is recovered with
      -- the input it was given.
      (i1, none)
    else
      (i1.drop len.length, some len)
  | _ => (i, none)

mutual

/-- `type_name` (src/parser.rs lines 234-276): dispatch on the first
character.  `fuel` bounds the recursion depth; every recursive production
consumes input, so any fuel of at least a small multiple of the input
length is enough (the top-level entry point `parse` supplies it). -/
def type_name : Nat → List Char → PRes TypeName
  | 0, _ => .error .err
  | fuel + 1, i =>
    match i with
    | [] => .ok ([], .None)
    | c :: rest =>
      if c = '[' then array_or_slice fuel i
      else if c = '*' then
        -- `unimplemented!("`tynm` is not implemented for pointer types.")`
        .error .fatal
      else if c = '!' then .ok (rest, .Never)
      else if c = '&' then parse_reference fuel i
      else if c = '(' then parse_unit_or_tuple fuel i
      else if c = 'd' then
        -- `input.splitn(2, ' ')`
        let tok := i.takeWhile (fun x => !(x == ' '))
        if tok = ("dyn".data) then
          match i.dropWhile (fun x => !(x == ' ')) with
          | [] => .ok ([], .Struct [] ("dyn".data) [])
          | _ :: remainder => trait_type fuel remainder
        else named_primitive_or_struct fuel i
      else named_primitive_or_struct fuel i

/-- `array_or_slice` (src/parser.rs lines 110-123), with
`array_or_slice_internal` inlined between the `[` and `]` delimiters. -/
def array_or_slice : Nat → List Char → PRes TypeName
  | 0, _ => .error .err
  | fuel + 1, i =>
    match i with
    | '[' :: i1 =>
      match type_name fuel i1 with
      | .error e => .error e
      | .ok (i2, type_param) =>
        let arr := array_length i2
        let tn : TypeName :=
          match arr.2 with
          | some len => .Array type_param len
          | none => .Slice type_param
        match arr.1 with
        | ']' :: i4 => .ok (i4, tn)
        | _ => .error .err
    | _ => .error .err

/-- `parse_reference` (src/parser.rs lines 125-138):
`char('&')`, `opt(tag("mut"))`, `opt(char(' '))`, then the referent. -/
def parse_reference : Nat → List Char → PRes TypeName
  | 0, _ => .error .err
  | fuel + 1, i =>
    match i with
    | '&' :: i1 =>
      let step2 : List Char × Bool :=
        match i1 with
        | 'm' :: 'u' :: 't' :: r => (r, true)
        | _ => (i1, false)
      let i3 : List Char :=
        match step2.1 with
        | ' ' :: r => r
        | _ => step2.1
      match type_name fuel i3 with
      | .error e => .error e
      | .ok (i4, type_param) => .ok (i4, .Reference step2.2 type_param)
    | _ => .error .err

/-- `parse_unit_or_tuple` (src/parser.rs lines 140-158):
`alt((parse_unit, parse_tuple))`; `parse_unit` is `tag("()")`, and
`parse_tuple` is `delimited(char('('), separated_list(tag(", "),
type_name), tuple((opt(char(',')), char(')'))))`. -/
def parse_unit_or_tuple : Nat → List Char → PRes TypeName
  | 0, _ => .error .err
  | fuel + 1, i =>
    match i with
    | '(' :: ')' :: i1 => .ok (i1, .Unit)
    | '(' :: i1 =>
      match separated_list_type_name fuel i1 with
      | .error e => .error e
      | .ok (i2, type_params) =>
        let i3 : List Char :=
          match i2 with
          | ',' :: r => r
          | _ => i2
        match i3 with
        | ')' :: i4 => .ok (i4, .Tuple type_params)
        | _ => .error .err
    | _ => .error .err

/-- `separated_list(tag(", "), type_name)` as used by `type_parameters` and
`parse_tuple` (nom 5 semantics, see the module docstring). -/
def separated_list_type_name : Nat → List Char → PRes (List TypeName)
  | 0, _ => .error .err
  | fuel + 1, i =>
    match type_name fuel i with
    | .error .fatal => .error .fatal
    | .error .err => .ok (i, [])
    | .ok (i1, t) =>
      match separated_list_loop fuel i1 with
      | .error e => .error e
      | .ok (i2, ts) => .ok (i2, t :: ts)

/-- The loop of `separated_list`: parse `", "` then an element; stop (without
consuming the separator) when either fails recoverably. -/
def separated_list_loop : Nat → List Char → PRes (List TypeName)
  | 0, _ => .error .err
  | fuel + 1, i =>
    match i with
    | ',' :: ' ' :: i1 =>
      match type_name fuel i1 with
      | .error .fatal => .error .fatal
      | .error .err => .ok (i, [])
      | .ok (i2, t) =>
        match separated_list_loop fuel i2 with
        | .error e => .error e
        | .ok (i3, ts) => .ok (i3, t :: ts)
    | _ => .ok (i, [])

/-- `type_parameters` (src/parser.rs lines 89-96):
`opt(delimited(char('<'), separated_list(tag(", "), type_name),
char('>')))`, with `None` collapsed to the empty list.  `opt` rewinds to
the original input on a recoverable failure of the inner parser. -/
def type_parameters : Nat → List Char → PRes (List TypeName)
  | 0, _ => .error .err
  | fuel + 1, i =>
    match i with
    | '<' :: i1 =>
      match separated_list_type_name fuel i1 with
      | .error .fatal => .error .fatal
      | .error .err => .ok (i, [])
      | .ok (i2, type_params) =>
        match i2 with
        | '>' :: i3 => .ok (i3, type_params)
        | _ => .ok (i, [])
    | _ => .ok (i, [])

/-- `struct_type` (src/parser.rs lines 192-206), returning the three fields
of `TypeNameStruct`. -/
def struct_type : Nat → List Char →
    PRes (List (List Char) × List Char × List TypeName)
  | 0, _ => .error .err
  | fuel + 1, i =>
    let mp := module_path i
    let sn := type_simple_name mp.1
    match type_parameters fuel sn.1 with
    | .error e => .error e
    | .ok (i3, type_params) => .ok (i3, (mp.2, sn.2, type_params))

/-- `named_primitive_or_struct` (src/parser.rs lines 208-220): primitives
are checked first. -/
def named_primitive_or_struct : Nat → List Char → PRes TypeName
  | 0, _ => .error .err
  | fuel + 1, i =>
    match named_primitive i with
    | some result => result
    | none =>
      match struct_type fuel i with
      | .error e => .error e
      | .ok (i1, (mp, sn, tp)) => .ok (i1, .Struct mp sn tp)

/-- `trait_type` (src/parser.rs lines 222-231). -/
def trait_type : Nat → List Char → PRes TypeName
  | 0, _ => .error .err
  | fuel + 1, i =>
    match struct_type fuel i with
    | .error e => .error e
    | .ok (i1, (mp, sn, tp)) => .ok (i1, .Trait mp sn tp)

end

/-- The parse entry point: `parser::type_name` applied to a whole string,
with enough fuel for the input (each unit of nesting both consumes input
and costs a bounded number of fuel decrements). -/
def parse (s : String) : PRes TypeName :=
  type_name (16 * s.data.length + 16) s.data

/-- `impl From<&str> for TypeName` (src/types.rs lines 603-614): the parse
remainder is discarded (`(_input, type_name)`), and a parser error becomes a
panic — modelled as `none` (no tree is produced). -/
def from_str (s : String) : Option TypeName :=
  match parse s with
  | .ok (_, t) => some t
  | .error _ => none

/-- The `render_short` pipeline (lib.rs `type_namemn` and the spec's
`render_short`): parse, then render with `(m, n)`; `none` when the parse
panics. -/
def render_short (s : String) (m n : Nat) : Option (List Char) :=
  (from_str s).map (fun t => write_str t m n)

/-! ## Specification-side definitions

These definitions follow the *spec's words* (not the source), so claims
can be compared against the code embedding above. -/

/-- The module-path portion described by claim C3: "if total >= L the full
path is emitted joined by `::`; otherwise the output is the first m segments
joined by `::`, then `::` if m > 0, then `..` if total > 0, then `::` if
n > 0, then the last n segments joined by `::`" (total = m + n,
saturating). -/
def c3_path_part (module_path : List (List Char)) (m n : Nat) : List Char :=
  let total := saturating_add m n
  let len := module_path.length
  if len ≤ total then
    List.intercalate ("::".data) module_path
  else
    List.intercalate ("::".data) (module_path.take m)
    ++ (if 0 < m then ("::".data) else [])
    ++ (if 0 < total then ("..".data) else [])
    ++ (if 0 < n then ("::".data) else [])
    ++ List.intercalate ("::".data) (module_path.drop (len - n))

mutual

/-- The "simple-name-and-type-parameter skeleton with all module paths
removed" described by claim C4: structural rendering with every nominal
node reduced to its simple name plus recursively skeletonised type
parameters. -/
def skeleton_str : TypeName → List Char
  | .None => []
  | .Array t len => ("[".data) ++ skeleton_str t ++ ("; ".data) ++ len ++ ("]".data)
  | .Never => ("!".data)
  | .Pointer cm t => ("* ".data) ++ cm ++ (" ".data) ++ skeleton_str t
  | .Reference mu t => ("&".data) ++ (if mu then ("mut ".data) else []) ++ skeleton_str t
  | .Slice t => ("[".data) ++ skeleton_str t ++ ("]".data)
  | .Struct _ nm ps => nm ++ skeleton_params ps
  | .Tuple ps => skeleton_tuple ps
  | .Trait _ nm ps => ("dyn ".data) ++ (nm ++ skeleton_params ps)
  | .Unit => ("()".data)

def skeleton_params : List TypeName → List Char
  | [] => []
  | t :: ts => ("<".data) ++ skeleton_str t ++ skeleton_rest ts ++ (">".data)

def skeleton_tuple : List TypeName → List Char
  | [] => []
  | [t] => ("(".data) ++ skeleton_str t ++ (",".data) ++ (")".data)
  | t :: ts => ("(".data) ++ skeleton_str t ++ skeleton_rest ts ++ (")".data)

def skeleton_rest : List TypeName → List Char
  | [] => []
  | t :: ts => (", ".data) ++ skeleton_str t ++ skeleton_rest ts

end

mutual

/-- The fully-qualified rendering of a tree: every nominal node prints its
complete module path with no elision.  The flag `sep` records whether a
`"::"` separator is printed between a module path and the simple name
(in the code this is governed globally by `0 < m + n`). -/
def full_str : TypeName → Bool → List Char
  | .None, _ => []
  | .Array t len, sep => ("[".data) ++ full_str t sep ++ ("; ".data) ++ len ++ ("]".data)
  | .Never, _ => ("!".data)
  | .Pointer cm t, sep => ("* ".data) ++ cm ++ (" ".data) ++ full_str t sep
  | .Reference mu t, sep =>
    ("&".data) ++ (if mu then ("mut ".data) else []) ++ full_str t sep
  | .Slice t, sep => ("[".data) ++ full_str t sep ++ ("]".data)
  | .Struct p nm ps, sep =>
    List.intercalate ("::".data) p ++ (if sep then ("::".data) else [])
    ++ nm ++ full_params ps sep
  | .Tuple ps, sep => full_tuple ps sep
  | .Trait p nm ps, sep =>
    ("dyn ".data) ++ (List.intercalate ("::".data) p ++ (if sep then ("::".data) else [])
      ++ nm ++ full_params ps sep)
  | .Unit, _ => ("()".data)

def full_params : List TypeName → Bool → List Char
  | [], _ => []
  | t :: ts, sep => ("<".data) ++ full_str t sep ++ full_rest ts sep ++ (">".data)

def full_tuple : List TypeName → Bool → List Char
  | [], _ => []
  | [t], sep => ("(".data) ++ full_str t sep ++ (",".data) ++ (")".data)
  | t :: ts, sep => ("(".data) ++ full_str t sep ++ full_rest ts sep ++ (")".data)

def full_rest : List TypeName → Bool → List Char
  | [], _ => []
  | t :: ts, sep => (", ".data) ++ full_str t sep ++ full_rest ts sep

end

mutual

/-- The maximum module-path depth of any nominal node in the tree. -/
def max_depth : TypeName → Nat
  | .None => 0
  | .Array t _ => max_depth t
  | .Never => 0
  | .Pointer _ t => max_depth t
  | .Reference _ t => max_depth t
  | .Slice t => max_depth t
  | .Struct p _ ps => max p.length (max_depth_list ps)
  | .Tuple ps => max_depth_list ps
  | .Trait p _ ps => max p.length (max_depth_list ps)
  | .Unit => 0

def max_depth_list : List TypeName → Nat
  | [] => 0
  | t :: ts => max (max_depth t) (max_depth_list ts)

end

/-- The module segments that `write_module_path` prints for a nominal node
(claim C8): all of them when `total >= L`, otherwise the first `m`
(`module_path[0..m]`) followed by the last `n` (`module_path[(len-n)..len]`). -/
def shown_segments (module_path : List (List Char)) (m n : Nat) : List (List Char) :=
  if module_path.length ≤ saturating_add m n then
    module_path
  else
    module_path.take m ++ module_path.drop (module_path.length - n)

/-- The number of module segments a nominal node elides behind the `".."`
marker (claim C8). -/
def elided_count (module_path : List (List Char)) (m n : Nat) : Nat :=
  module_path.length - (shown_segments module_path m n).length

/-! ## Helper lemmas -/

theorem intercalate_nil_list (sep : List Char) : List.intercalate sep [] = [] := rfl

theorem saturating_add_mono {m n m' n' : Nat} (hm : m ≤ m') (hn : n ≤ n') :
    saturating_add m n ≤ saturating_add m' n' :=
  min_le_min (Nat.add_le_add hm hn) (Nat.le_refl _)

theorem usize_max_pos : 0 < USIZE_MAX := by
  unfold USIZE_MAX
  norm_num

theorem saturating_add_pos_iff (m n : Nat) : 0 < saturating_add m n ↔ 0 < m + n := by
  unfold saturating_add
  rw [lt_min_iff]
  exact ⟨fun h => h.1, fun h => ⟨h, usize_max_pos⟩⟩

theorem le_saturating_add {L m n : Nat} (h1 : L ≤ m + n) (h2 : L ≤ USIZE_MAX) :
    L ≤ saturating_add m n :=
  le_min h1 h2

theorem saturating_add_zero : saturating_add 0 0 = 0 := by
  unfold saturating_add
  simp

theorem write_module_path_zero (p : List (List Char)) : write_module_path p 0 0 = [] := by
  unfold write_module_path
  rw [saturating_add_zero]
  simp only [Nat.le_zero, Nat.lt_irrefl, if_false, List.length_eq_zero]
  by_cases hp : p = []
  · subst hp
    simp [intercalate_nil_list]
  · rw [if_neg hp]
    simp [intercalate_nil_list, List.drop_length]

theorem c3_path_part_zero (p : List (List Char)) : c3_path_part p 0 0 = [] := by
  unfold c3_path_part
  rw [saturating_add_zero]
  simp only [Nat.le_zero, Nat.lt_irrefl, if_false, List.length_eq_zero]
  by_cases hp : p = []
  · subst hp
    simp [intercalate_nil_list]
  · rw [if_neg hp]
    simp [intercalate_nil_list, List.drop_length]

theorem c3_path_part_ne_nil_pos {p : List (List Char)} {m n : Nat}
    (h : c3_path_part p m n ≠ []) : 0 < saturating_add m n := by
  by_contra hpos
  have hz : saturating_add m n = 0 := Nat.eq_zero_of_not_pos hpos
  have hmn : m + n = 0 := by
    have := usize_max_pos
    unfold saturating_add at hz
    omega
  have hm : m = 0 := by omega
  have hn : n = 0 := by omega
  subst hm
  subst hn
  exact h (c3_path_part_zero p)

theorem take_sublist_take (l : List (List Char)) {a b : Nat} (h : a ≤ b) :
    List.Sublist (l.take a) (l.take b) := by
  have heq : l.take a = (l.take b).take a := by
    rw [List.take_take, Nat.min_eq_left h]
  rw [heq]
  exact List.take_sublist _ _

theorem drop_sublist_drop (l : List (List Char)) {a b : Nat} (h : b ≤ a) :
    List.Sublist (l.drop a) (l.drop b) := by
  have heq : l.drop a = (l.drop b).drop (a - b) := by
    rw [List.drop_drop]
    congr 1
    omega
  rw [heq]
  exact List.drop_sublist _ _

mutual

theorem write_str_zero (t : TypeName) : write_str t 0 0 = skeleton_str t := by
  cases t with
  | None => rfl
  | Array tp len => simp [write_str, skeleton_str, write_str_zero tp]
  | Never => rfl
  | Pointer cm tp => simp [write_str, skeleton_str, write_str_zero tp]
  | Reference mu tp => simp [write_str, skeleton_str, write_str_zero tp]
  | Slice tp => simp [write_str, skeleton_str, write_str_zero tp]
  | Struct p nm ps =>
    simp [write_str, skeleton_str, write_module_path_zero, write_type_params_zero ps]
  | Tuple ps => simp [write_str, skeleton_str, tuple_write_str_zero ps]
  | Trait p nm ps =>
    simp [write_str, skeleton_str, write_module_path_zero, write_type_params_zero ps]
  | Unit => rfl

theorem write_type_params_zero (ts : List TypeName) :
    write_type_params ts 0 0 = skeleton_params ts := by
  match ts with
  | [] => rfl
  | t :: ts =>
    simp [write_type_params, skeleton_params, write_str_zero t, write_params_rest_zero ts]

theorem tuple_write_str_zero (ts : List TypeName) :
    tuple_write_str ts 0 0 = skeleton_tuple ts := by
  match ts with
  | [] => rfl
  | [t] => simp [tuple_write_str, skeleton_tuple, write_str_zero t]
  | t :: t' :: ts =>
    simp [tuple_write_str, skeleton_tuple, write_str_zero t,
      write_params_rest_zero (t' :: ts)]

theorem write_params_rest_zero (ts : List TypeName) :
    write_params_rest ts 0 0 = skeleton_rest ts := by
  match ts with
  | [] => rfl
  | t :: ts =>
    simp [write_params_rest, skeleton_rest, write_str_zero t, write_params_rest_zero ts]

end

theorem write_module_path_full {p : List (List Char)} {m n : Nat}
    (hm : p.length ≤ m) (hmax : p.length ≤ USIZE_MAX) :
    write_module_path p m n =
      List.intercalate ("::".data) p
      ++ (if decide (0 < m + n) then ("::".data) else []) := by
  have hsat : p.length ≤ saturating_add m n :=
    le_saturating_add (hm.trans (Nat.le_add_right m n)) hmax
  simp only [write_module_path]
  rw [if_pos hsat]
  congr 1
  by_cases hpos : 0 < m + n
  · rw [if_pos ((saturating_add_pos_iff m n).mpr hpos), if_pos (by simpa using hpos)]
  · rw [if_neg (fun h => hpos ((saturating_add_pos_iff m n).mp h)), if_neg (by simpa using hpos)]

mutual

theorem write_str_full (m n : Nat) (t : TypeName) (hm : max_depth t ≤ m)
    (hn : max_depth t ≤ n) (hmax : max_depth t ≤ USIZE_MAX) :
    write_str t m n = full_str t (decide (0 < m + n)) := by
  cases t with
  | None => rfl
  | Array tp len =>
    simp only [max_depth] at hm hn hmax
    simp [write_str, full_str, write_str_full m n tp hm hn hmax]
  | Never => rfl
  | Pointer cm tp =>
    simp only [max_depth] at hm hn hmax
    simp [write_str, full_str, write_str_full m n tp hm hn hmax]
  | Reference mu tp =>
    simp only [max_depth] at hm hn hmax
    simp [write_str, full_str, write_str_full m n tp hm hn hmax]
  | Slice tp =>
    simp only [max_depth] at hm hn hmax
    simp [write_str, full_str, write_str_full m n tp hm hn hmax]
  | Struct p nm ps =>
    simp only [max_depth, Nat.max_le] at hm hn hmax
    simp [write_str, full_str, write_module_path_full hm.1 hmax.1,
      write_type_params_full m n ps hm.2 hn.2 hmax.2]
  | Tuple ps =>
    simp only [max_depth] at hm hn hmax
    simp [write_str, full_str, tuple_write_str_full m n ps hm hn hmax]
  | Trait p nm ps =>
    simp only [max_depth, Nat.max_le] at hm hn hmax
    simp [write_str, full_str, write_module_path_full hm.1 hmax.1,
      write_type_params_full m n ps hm.2 hn.2 hmax.2]
  | Unit => rfl

theorem write_type_params_full (m n : Nat) (ts : List TypeName)
    (hm : max_depth_list ts ≤ m) (hn : max_depth_list ts ≤ n)
    (hmax : max_depth_list ts ≤ USIZE_MAX) :
    write_type_params ts m n = full_params ts (decide (0 < m + n)) := by
  match ts with
  | [] => rfl
  | t :: ts =>
    simp only [max_depth_list, Nat.max_le] at hm hn hmax
    simp [write_type_params, full_params, write_str_full m n t hm.1 hn.1 hmax.1,
      write_params_rest_full m n ts hm.2 hn.2 hmax.2]

theorem tuple_write_str_full (m n : Nat) (ts : List TypeName)
    (hm : max_depth_list ts ≤ m) (hn : max_depth_list ts ≤ n)
    (hmax : max_depth_list ts ≤ USIZE_MAX) :
    tuple_write_str ts m n = full_tuple ts (decide (0 < m + n)) := by
  match ts with
  | [] => rfl
  | [t] =>
    simp only [max_depth_list, Nat.max_le] at hm hn hmax
    simp [tuple_write_str, full_tuple, write_str_full m n t hm.1 hn.1 hmax.1]
  | t :: t' :: ts =>
    simp only [max_depth_list, Nat.max_le] at hm hn hmax
    simp [tuple_write_str, full_tuple, write_str_full m n t hm.1 hn.1 hmax.1,
      write_params_rest_full m n (t' :: ts) (by simp [max_depth_list]; omega)
        (by simp [max_depth_list]; omega) (by simp [max_depth_list]; omega)]

theorem write_params_rest_full (m n : Nat) (ts : List TypeName)
    (hm : max_depth_list ts ≤ m) (hn : max_depth_list ts ≤ n)
    (hmax : max_depth_list ts ≤ USIZE_MAX) :
    write_params_rest ts m n = full_rest ts (decide (0 < m + n)) := by
  match ts with
  | [] => rfl
  | t :: ts =>
    simp only [max_depth_list, Nat.max_le] at hm hn hmax
    simp [write_params_rest, full_rest, write_str_full m n t hm.1 hn.1 hmax.1,
      write_params_rest_full m n ts hm.2 hn.2 hmax.2]

end

/-! ## Claims -/

/-- C1 (corrected): when the parser combinator fails, `From<&str>` produces
no tree (the panic is modelled as `none`); when the combinator succeeds,
`From<&str>` returns the parsed tree — even if trailing input was left
unconsumed (see `c1_counterexample`). -/
theorem c1_parse_failure_handling :
    (∀ s rem t, parse s = .ok (rem, t) → from_str s = some t)
    ∧ (∀ s e, parse s = .error e → from_str s = none) := by
  constructor
  · intro s rem t h
    simp [from_str, h]
  · intro s e h
    simp [from_str, h]

theorem c1_witness :
    from_str ("String junk") = some (.Struct [] ("String".data) [])
    ∧ from_str ("(") = none :=
  ⟨c1_parse_failure_handling.1 ("String junk") (" junk".data) _ rfl,
   c1_parse_failure_handling.2 ("(") .err rfl⟩

/-- C1 counterexample: the input `"String junk"` does not match any
production as a whole, yet the parse succeeds on the prefix `"String"`
and `From<&str>` silently discards the non-empty unconsumed remainder
`" junk"` — contradicting "parsing never silently succeeds on a malformed
input by ... ignoring unconsumed trailing input". -/
theorem c1_counterexample :
    parse ("String junk") = .ok ((" junk".data), .Struct [] ("String".data) [])
    ∧ (" junk".data) ≠ ([] : List Char)
    ∧ from_str ("String junk") = some (.Struct [] ("String".data) []) :=
  ⟨rfl, by decide, rfl⟩

/-- C2 (corrected): a nominal node with an empty module path renders as the
bare simple name only when `saturating_add m n = 0`; for every positive
`m + n` — including `usize::MAX` — the renderer emits a leading `"::"`
separator artifact before the simple name. -/
theorem c2_zero_path_rendering :
    parse ("usize") = .ok ([], .Struct [] ("usize".data) [])
    ∧ (∀ nm m n, write_str (.Struct [] nm []) m n
        = (if 0 < saturating_add m n then ("::".data) else []) ++ nm)
    ∧ write_str (.Struct [] ("usize".data) []) USIZE_MAX USIZE_MAX = ("::usize".data)
    ∧ write_str (.Struct [] ("usize".data) []) 0 0 = ("usize".data) := by
  refine ⟨rfl, ?_, rfl, rfl⟩
  intro nm m n
  simp [write_str, write_type_params, write_module_path, intercalate_nil_list]

/-- C2 counterexample: rendering the parse of `"usize"` with
`m = n = usize::MAX` yields `"::usize"`, not `"usize"` (this is also what
the crate's own test `type_name_usize_mn` asserts). -/
theorem c2_counterexample :
    parse ("usize") = .ok ([], .Struct [] ("usize".data) [])
    ∧ write_str (.Struct [] ("usize".data) []) USIZE_MAX USIZE_MAX = ("::usize".data)
    ∧ ("::usize".data) ≠ ("usize".data) :=
  ⟨rfl, rfl, by decide⟩

/-- C3 (confirmed): for a nominal (`Struct`/`Trait`) node the module-path
output is exactly the claimed formula (`c3_path_part`, with
`total = m + n` saturating) followed by the separator the code appends,
and whenever any path was rendered (the formula is non-empty) a trailing
`"::"` is emitted before the simple name. -/
theorem c3_module_path_format (p : List (List Char)) (nm : List Char)
    (ps : List TypeName) (m n : Nat) :
    (write_str (.Struct p nm ps) m n =
      (c3_path_part p m n ++ (if 0 < saturating_add m n then ("::".data) else []))
        ++ nm ++ write_type_params ps m n)
    ∧ (write_str (.Trait p nm ps) m n =
      ("dyn ".data) ++
        ((c3_path_part p m n ++ (if 0 < saturating_add m n then ("::".data) else []))
          ++ nm ++ write_type_params ps m n))
    ∧ (c3_path_part p m n ≠ [] →
      write_str (.Struct p nm ps) m n =
        (c3_path_part p m n ++ ("::".data)) ++ nm ++ write_type_params ps m n) := by
  have hwmp : write_module_path p m n
      = c3_path_part p m n ++ (if 0 < saturating_add m n then ("::".data) else []) := rfl
  refine ⟨?_, ?_, ?_⟩
  · simp only [write_str]
    rw [hwmp]
  · simp only [write_str]
    rw [hwmp]
  · intro h
    simp only [write_str]
    rw [hwmp, if_pos (c3_path_part_ne_nil_pos h)]

theorem c3_witness :
    write_str (.Struct [("a".data), ("b".data), ("c".data)] ("X".data) []) 1 1 =
      (c3_path_part [("a".data), ("b".data), ("c".data)] 1 1 ++ ("::".data))
        ++ ("X".data) ++ write_type_params [] 1 1 :=
  (c3_module_path_format [("a".data), ("b".data), ("c".data)] ("X".data) [] 1 1).2.2
    (by decide)

/-- C4 (corrected): rendering with `m = n = 0` yields exactly the
simple-name-and-type-parameter skeleton with all module paths removed;
rendering with `m` and `n` both at least the tree's maximum module-path
depth yields the tree's canonical fully-qualified spelling (`full_str`):
every module path in full, no `".."` elision, with a `"::"` separator
before each simple name exactly when `0 < m + n`.  That spelling equals
the original input for canonical inputs, but not in general
(see `c4_counterexample`). -/
theorem c4_roundtrip_amended :
    (∀ t, write_str t 0 0 = skeleton_str t)
    ∧ (∀ t m n, max_depth t ≤ m → max_depth t ≤ n → max_depth t ≤ USIZE_MAX →
        write_str t m n = full_str t (decide (0 < m + n))) :=
  ⟨write_str_zero, fun t m n hm hn hmax => write_str_full m n t hm hn hmax⟩

theorem c4_witness :
    write_str (.Struct [("core".data), ("option".data)] ("Option".data)
        [.Struct [("alloc".data), ("string".data)] ("String".data) []]) 2 2
      = ("core::option::Option<alloc::string::String>".data) :=
  (c4_roundtrip_amended.2
    (.Struct [("core".data), ("option".data)] ("Option".data)
      [.Struct [("alloc".data), ("string".data)] ("String".data) []])
    2 2 (by decide) (by decide) (by decide)).trans (by decide)

/-- C4 counterexample: `"usize"` parses fully to a tree of maximum
module-path depth 0, yet rendering with `m = n = 1` (both ≥ the depth)
yields `"::usize"`, not the original text `"usize"`. -/
theorem c4_counterexample :
    parse ("usize") = .ok ([], .Struct [] ("usize".data) [])
    ∧ max_depth (.Struct [] ("usize".data) []) ≤ 1
    ∧ write_str (.Struct [] ("usize".data) []) 1 1 ≠ ("usize".data) :=
  ⟨rfl, by decide, by decide⟩

/-- C5 (corrected): primitive detection is exact-prefix matching against the
primitive table with a boundary check of end-of-input or a character
outside the *lowercase* identifier class (not the full identifier class:
an uppercase letter also acts as a boundary, see `c5_counterexample`),
and it is tried before generic module-path parsing; `"u32x4::Thing"` is
not classified as the primitive `u32`, while `"u32"` alone is. -/
theorem c5_primitive_boundary :
    (∀ i r, named_primitive i = some r →
      ∃ p, p ∈ PRIMITIVE_TYPES ∧ p.isPrefixOf i = true
        ∧ (i.drop p.length = []
           ∨ ∃ c rest, i.drop p.length = c :: rest
              ∧ is_lowercase_alphanumeric_underscore c = false))
    ∧ (∀ fuel i r, named_primitive i = some r → named_primitive_or_struct (fuel + 1) i = r)
    ∧ parse ("u32x4::Thing") = .ok ([], .Struct [("u32x4".data)] ("Thing".data) [])
    ∧ parse ("u32") = .ok ([], .Struct [] ("u32".data) []) := by
  refine ⟨?_, ?_, rfl, rfl⟩
  · intro i r h
    unfold named_primitive at h
    cases hfind : PRIMITIVE_TYPES.find? (fun p => p.isPrefixOf i) with
    | none =>
      rw [hfind] at h
      exact absurd h (by simp)
    | some p =>
      rw [hfind] at h
      dsimp only at h
      refine ⟨p, List.mem_of_find?_eq_some hfind, by simpa using List.find?_some hfind, ?_⟩
      cases hdrop : i.drop p.length with
      | nil => exact Or.inl rfl
      | cons c rest =>
        rw [hdrop] at h
        by_cases hc : is_lowercase_alphanumeric_underscore c = true
        · simp [hc] at h
        · exact Or.inr ⟨c, rest, rfl, by simpa using hc⟩
  · intro fuel i r h
    simp [named_primitive_or_struct, h]

theorem c5_witness :
    ∃ p, p ∈ PRIMITIVE_TYPES ∧ p.isPrefixOf ("u32".data) = true
      ∧ (("u32".data).drop p.length = []
         ∨ ∃ c rest, ("u32".data).drop p.length = c :: rest
            ∧ is_lowercase_alphanumeric_underscore c = false) :=
  c5_primitive_boundary.1 ("u32".data) (.ok ([], .Struct [] ("u32".data) [])) rfl

/-- C5 counterexample: on `"u32X"` the next character `'X'` *is* an
identifier character, so under the claimed "end-of-input or non-identifier
character" boundary the primitive must not match — yet the code classifies
the input as the primitive `u32` (the boundary class it actually uses is
the lowercase one). -/
theorem c5_counterexample :
    named_primitive ("u32X".data) = some (.ok ((['X']), .Struct [] ("u32".data) []))
    ∧ is_alphanumeric_underscore 'X' = true
    ∧ (['X'] : List Char) ≠ [] :=
  ⟨rfl, rfl, by decide⟩

/-- C6 (corrected): the trailing comma of a single-element tuple is
*optional* on input — `"(alloc::string::String)"` without the comma parses
to the very same one-element tuple as `"(alloc::string::String,)"` — and
rendering a one-element tuple always emits a `","` after the element:
both render to `"(String,)"` at `m = n = 0`. -/
theorem c6_tuple_trailing_comma :
    parse ("(alloc::string::String,)")
      = .ok ([], .Tuple [.Struct [("alloc".data), ("string".data)] ("String".data) []])
    ∧ parse ("(alloc::string::String)")
      = .ok ([], .Tuple [.Struct [("alloc".data), ("string".data)] ("String".data) []])
    ∧ write_str (.Tuple [.Struct [("alloc".data), ("string".data)] ("String".data) []]) 0 0
      = ("(String,)".data)
    ∧ (∀ t m n, write_str (.Tuple [t]) m n
        = ("(".data) ++ write_str t m n ++ (",".data) ++ (")".data)) :=
  ⟨rfl, rfl, rfl, fun _ _ _ => rfl⟩

/-- C6 counterexample: `"(alloc::string::String)"` — a single-element tuple
*without* the trailing comma — parses completely as a one-element tuple,
contradicting "an input like (T) without the comma does not parse as a
one-element tuple" (the comma is `opt(char(','))` in `parse_tuple`). -/
theorem c6_counterexample :
    parse ("(alloc::string::String)")
      = .ok ([], .Tuple [.Struct [("alloc".data), ("string".data)] ("String".data) []]) :=
  rfl

/-- C7 (confirmed): rendering threads the same `(m, n)` pair unchanged into
every nested type parameter (struct type-parameter lists, their tails, and
tuples), with no per-depth decay; e.g. the parse of
`"core::option::Option<alloc::string::String>"` rendered with
`m = 1, n = 0` is `"core::..::Option<alloc::..::String>"`. -/
theorem c7_uniform_mn :
    (∀ p nm ps m n, write_str (.Struct p nm ps) m n
      = write_module_path p m n ++ nm ++ write_type_params ps m n)
    ∧ (∀ t ts m n, write_type_params (t :: ts) m n
      = ("<".data) ++ write_str t m n ++ write_params_rest ts m n ++ (">".data))
    ∧ (∀ t ts m n, write_params_rest (t :: ts) m n
      = (", ".data) ++ write_str t m n ++ write_params_rest ts m n)
    ∧ (∀ t m n, write_str (.Tuple [t]) m n
      = ("(".data) ++ write_str t m n ++ (",".data) ++ (")".data))
    ∧ parse ("core::option::Option<alloc::string::String>")
      = .ok ([], .Struct [("core".data), ("option".data)] ("Option".data)
          [.Struct [("alloc".data), ("string".data)] ("String".data) []])
    ∧ write_str (.Struct [("core".data), ("option".data)] ("Option".data)
        [.Struct [("alloc".data), ("string".data)] ("String".data) []]) 1 0
      = ("core::..::Option<alloc::..::String>".data) :=
  ⟨fun _ _ _ _ _ => rfl, fun _ _ _ _ => rfl, fun _ _ _ _ => rfl, fun _ _ _ => rfl,
   rfl, rfl⟩

/-- C8 (confirmed): for a fixed module path, increasing `m` and/or `n` never
increases the number of segments elided behind `".."` and never removes a
previously shown segment (the shown segments at the smaller parameters form
a sublist of those at the larger parameters). -/
theorem c8_elision_monotonic (p : List (List Char)) (m n m' n' : Nat)
    (hm : m ≤ m') (hn : n ≤ n') :
    List.Sublist (shown_segments p m n) (shown_segments p m' n')
    ∧ elided_count p m' n' ≤ elided_count p m n := by
  have hsub : List.Sublist (shown_segments p m n) (shown_segments p m' n') := by
    unfold shown_segments
    by_cases h1 : p.length ≤ saturating_add m n
    · rw [if_pos h1, if_pos (h1.trans (saturating_add_mono hm hn))]
    · rw [if_neg h1]
      by_cases h2 : p.length ≤ saturating_add m' n'
      · rw [if_pos h2]
        have hplen : p.length ≤ USIZE_MAX := h2.trans (Nat.min_le_right _ _)
        have hmn : m + n < p.length := by
          unfold saturating_add at h1
          omega
        have hd : p.take (p.length - n) ++ p.drop (p.length - n) = p :=
          List.take_append_drop _ _
        have htake : List.Sublist (List.take m p) (List.take (p.length - n) p) :=
          take_sublist_take p (by omega)
        refine List.Sublist.trans (List.Sublist.append htake (List.Sublist.refl _)) ?_
        rw [hd]
      · rw [if_neg h2]
        exact List.Sublist.append (take_sublist_take p hm)
          (drop_sublist_drop p (by omega))
  refine ⟨hsub, ?_⟩
  unfold elided_count
  have hlen := hsub.length_le
  omega

theorem c8_witness :
    List.Sublist (shown_segments [("a".data), ("b".data), ("c".data)] 1 0)
        (shown_segments [("a".data), ("b".data), ("c".data)] 2 0)
    ∧ elided_count [("a".data), ("b".data), ("c".data)] 2 0
        ≤ elided_count [("a".data), ("b".data), ("c".data)] 1 0 :=
  c8_elision_monotonic [("a".data), ("b".data), ("c".data)] 1 0 2 0
    (by decide) (by decide)

/-- C9 (confirmed): every input whose first character is `'*'` hits the
`unimplemented!` branch — a fatal condition (`PErr.fatal`) distinct from a
malformed-input error (`PErr.err`), and no `TypeName` tree is produced. -/
theorem c9_pointer_fatal (s : String) (h : s.data.head? = some ('*')) :
    parse s = .error .fatal ∧ from_str s = none := by
  obtain ⟨cs, hcs⟩ := List.head?_eq_some_iff.mp h
  have hp : parse s = .error .fatal := by
    unfold parse
    rw [hcs]
    rfl
  exact ⟨hp, by simp [from_str, hp]⟩

theorem c9_witness : parse ("*const u8") = .error .fatal
    ∧ from_str ("*const u8") = none :=
  c9_pointer_fatal ("*const u8") rfl

/-- C10 (confirmed): parsing the empty string succeeds with
`TypeName::None`, rendering `None` writes nothing for every `(m, n)`, and
the parse-then-render pipeline maps the empty input to the empty output
for all parameter values. -/
theorem c10_empty_input :
    parse ("") = .ok ([], .None)
    ∧ (∀ m n, write_str .None m n = [])
    ∧ (∀ m n, render_short ("") m n = some []) :=
  ⟨rfl, fun _ _ => rfl, fun _ _ => rfl⟩

end Tynm

